import Mathlib

/-!
Verification development for the `resumable_downloader` repository.

The repository downloads a remote resource to a local file with resumption
across restarts, advisory lock files, bounded retry, and a multi-track
terminal progress renderer.  The relevant code lives in
`src/downloader.rs` and `src/progress.rs`.  This file gives a shallow
embedding of the pure logic of those modules: path derivations
(`temp_path`, `lock_path`, the MD5 hex digest used by the lock name), the
header-probing logic of `probe_remote_size`, the pre-attempt
reconciliation of `should_skip_download`, the per-attempt transfer logic
of `try_download`, the retry driver `download`, and the ANSI-aware
progress rendering of `safe_update` and `truncate_ansi`.

Filesystem and network effects are embedded by explicit state passing: an
`FsState` records existence and byte sizes of the three files a download
touches, and an `AttemptEnv` records what the environment (HTTP server,
filesystem, lock acquisition) does during one attempt.  All embedded
functions are executable, so concrete runs evaluate by `decide`.
-/

set_option autoImplicit false

namespace RD

/-! ### Small string and number utilities -/

/-- Model of Rust `u64::from_str` (`str::parse::<u64>()`): an optional
leading plus sign, then one or more ASCII digits, value below `2 ^ 64`
(overflow fails).  Used by `probe_remote_size` on header values. -/
def parseU64 (s : String) : Option Nat :=
  let cs : List Char := match s.data with
    | '+' :: rest => rest
    | l => l
  if cs = [] then none
  else if cs.all (fun c => decide ('0' ≤ c ∧ c ≤ '9')) then
    let v := cs.foldl (fun a c => a * 10 + (c.toNat - 48)) 0
    if v < 2 ^ 64 then some v else none
  else none

/-- Model of Rust `str::split('/')` on the character list of a string:
splits at every slash, keeping empty pieces, as Rust does. -/
def splitSlashAux : List Char → List Char → List (List Char)
  | [], acc => [acc.reverse]
  | '/' :: cs, acc => acc.reverse :: splitSlashAux cs []
  | c :: cs, acc => splitSlashAux cs (c :: acc)

/-- Pieces of `s` split at `'/'`, in order, as lists of characters. -/
def splitSlash (s : String) : List (List Char) :=
  splitSlashAux s.data []

/-! ### MD5 (the `md5` crate), used by `path_md5_hash` in downloader.rs -/

/-- Truncate to a 32-bit word. -/
def w32 (n : Nat) : Nat := n % 4294967296

/-- Rotate a 32-bit word left by `s` bits (`0 < s < 32`, `x < 2 ^ 32`). -/
def rotl32 (x s : Nat) : Nat := w32 (x <<< s) ||| (x >>> (32 - s))

/-- The 64 MD5 sine-derived constants. -/
def md5K : List Nat :=
  [0xd76aa478, 0xe8c7b756, 0x242070db, 0xc1bdceee,
   0xf57c0faf, 0x4787c62a, 0xa8304613, 0xfd469501,
   0x698098d8, 0x8b44f7af, 0xffff5bb1, 0x895cd7be,
   0x6b901122, 0xfd987193, 0xa679438e, 0x49b40821,
   0xf61e2562, 0xc040b340, 0x265e5a51, 0xe9b6c7aa,
   0xd62f105d, 0x02441453, 0xd8a1e681, 0xe7d3fbc8,
   0x21e1cde6, 0xc33707d6, 0xf4d50d87, 0x455a14ed,
   0xa9e3e905, 0xfcefa3f8, 0x676f02d9, 0x8d2a4c8a,
   0xfffa3942, 0x8771f681, 0x6d9d6122, 0xfde5380c,
   0xa4beea44, 0x4bdecfa9, 0xf6bb4b60, 0xbebfbc70,
   0x289b7ec6, 0xeaa127fa, 0xd4ef3085, 0x04881d05,
   0xd9d4d039, 0xe6db99e5, 0x1fa27cf8, 0xc4ac5665,
   0xf4292244, 0x432aff97, 0xab9423a7, 0xfc93a039,
   0x655b59c3, 0x8f0ccc92, 0xffeff47d, 0x85845dd1,
   0x6fa87e4f, 0xfe2ce6e0, 0xa3014314, 0x4e0811a1,
   0xf7537e82, 0xbd3af235, 0x2ad7d2bb, 0xeb86d391]

/-- The 64 MD5 per-round left-rotation amounts. -/
def md5S : List Nat :=
  [7, 12, 17, 22, 7, 12, 17, 22, 7, 12, 17, 22, 7, 12, 17, 22,
   5, 9, 14, 20, 5, 9, 14, 20, 5, 9, 14, 20, 5, 9, 14, 20,
   4, 11, 16, 23, 4, 11, 16, 23, 4, 11, 16, 23, 4, 11, 16, 23,
   6, 10, 15, 21, 6, 10, 15, 21, 6, 10, 15, 21, 6, 10, 15, 21]

/-- MD5 nonlinear round function for round `i`. -/
def md5F (i b c d : Nat) : Nat :=
  if i < 16 then (b &&& c) ||| ((b ^^^ 0xffffffff) &&& d)
  else if i < 32 then (d &&& b) ||| ((d ^^^ 0xffffffff) &&& c)
  else if i < 48 then b ^^^ c ^^^ d
  else c ^^^ (b ||| (d ^^^ 0xffffffff))

/-- MD5 message-word index for round `i`. -/
def md5G (i : Nat) : Nat :=
  if i < 16 then i
  else if i < 32 then (5 * i + 1) % 16
  else if i < 48 then (3 * i + 5) % 16
  else (7 * i) % 16

/-- MD5 working state. -/
structure Md5St where
  a : Nat
  b : Nat
  c : Nat
  d : Nat
  deriving DecidableEq

/-- One MD5 round over the 16 message words `M`. -/
def md5Step (M : List Nat) (st : Md5St) (i : Nat) : Md5St :=
  let f := w32 (md5F i st.b st.c st.d + st.a + md5K.getD i 0 + M.getD (md5G i) 0)
  { a := st.d, b := w32 (st.b + rotl32 f (md5S.getD i 0)), c := st.b, d := st.c }

/-- Process one 64-byte block, given as 16 little-endian 32-bit words. -/
def md5Block (st : Md5St) (M : List Nat) : Md5St :=
  let r := (List.range 64).foldl (md5Step M) st
  { a := w32 (st.a + r.a), b := w32 (st.b + r.b),
    c := w32 (st.c + r.c), d := w32 (st.d + r.d) }

/-- Little-endian 8-byte encoding of `n` (mod `2 ^ 64`). -/
def leBytes8 (n : Nat) : List Nat :=
  (List.range 8).map (fun i => (n >>> (8 * i)) % 256)

/-- MD5 padding: append `0x80`, zero-fill to 56 mod 64, then the bit
length as 8 little-endian bytes. -/
def md5Pad (m : List Nat) : List Nat :=
  let len := m.length
  let z := (119 - (len % 64)) % 64
  m ++ [128] ++ List.replicate z 0 ++ leBytes8 (8 * len)

/-- The 16 little-endian words of block `bi` of the padded message. -/
def md5Words (padded : List Nat) (bi : Nat) : List Nat :=
  (List.range 16).map (fun j =>
    padded.getD (64 * bi + 4 * j) 0
    + 256 * padded.getD (64 * bi + 4 * j + 1) 0
    + 65536 * padded.getD (64 * bi + 4 * j + 2) 0
    + 16777216 * padded.getD (64 * bi + 4 * j + 3) 0)

/-- Little-endian bytes of a 32-bit word. -/
def wordLE (w : Nat) : List Nat :=
  [w % 256, (w >>> 8) % 256, (w >>> 16) % 256, (w >>> 24) % 256]

/-- The 16-byte MD5 digest of a byte list. -/
def md5Bytes (m : List Nat) : List Nat :=
  let padded := md5Pad m
  let st := (List.range (padded.length / 64)).foldl
    (fun st bi => md5Block st (md5Words padded bi))
    { a := 0x67452301, b := 0xefcdab89, c := 0x98badcfe, d := 0x10325476 }
  wordLE st.a ++ wordLE st.b ++ wordLE st.c ++ wordLE st.d

/-- Lowercase hexadecimal digit for `n < 16`. -/
def hexDigit (n : Nat) : Char :=
  if n < 10 then Char.ofNat (n + 48) else Char.ofNat (n + 87)

/-- Two lowercase hex digits of a byte. -/
def hexOfByte (b : Nat) : List Char := [hexDigit (b / 16), hexDigit (b % 16)]

/-- UTF-8 encoding of one character. -/
def utf8Char (c : Char) : List Nat :=
  let n := c.toNat
  if n < 128 then [n]
  else if n < 2048 then [192 ||| (n >>> 6), 128 ||| (n &&& 63)]
  else if n < 65536 then
    [224 ||| (n >>> 12), 128 ||| ((n >>> 6) &&& 63), 128 ||| (n &&& 63)]
  else
    [240 ||| (n >>> 18), 128 ||| ((n >>> 12) &&& 63),
     128 ||| ((n >>> 6) &&& 63), 128 ||| (n &&& 63)]

/-- UTF-8 bytes of a string. -/
def strBytes (s : String) : List Nat := (s.data.map utf8Char).flatten

/-- Model of `path_md5_hash` (downloader.rs lines 48-51): the lowercase
hex MD5 digest of the UTF-8 bytes of the string form of the path.
Paths are modeled as their (valid Unicode) string form, so
`to_string_lossy` is the identity. -/
def path_md5_hash (p : String) : String :=
  ⟨((md5Bytes (strBytes p)).map hexOfByte).flatten⟩

/-! ### Path model

`Downloader.output_path` is a `PathBuf`; the embedding models a path as
its string form, POSIX separators.  The model covers destination paths
whose final component is an ordinary file name (nonempty, not `.` or
`..`, no trailing separator) — which is what a download destination is;
the well-formedness side condition appears as a hypothesis where it
matters. -/

/-- Characters after the last `'/'` (the whole list when there is no
slash). -/
def pathFileNameL (l : List Char) : List Char :=
  (l.reverse.takeWhile (fun c => c ≠ '/')).reverse

/-- Characters up to and including the last `'/'` (empty when there is
no slash). -/
def pathDirL (l : List Char) : List Char :=
  (l.reverse.dropWhile (fun c => c ≠ '/')).reverse

/-- The component after the last `'/'` of `p` (the whole of `p` when it
has no slash). -/
def pathFileName (p : String) : String := ⟨pathFileNameL p.data⟩

/-- Everything up to and including the last `'/'` of `p` (empty when `p`
has no slash). -/
def pathDirOf (p : String) : String := ⟨pathDirL p.data⟩

/-- The destination path has an ordinary final component. -/
def wellFormedDest (p : String) : Prop :=
  pathFileName p ≠ "" ∧ pathFileName p ≠ "." ∧ pathFileName p ≠ ".."

instance (p : String) : Decidable (wellFormedDest p) := by
  unfold wellFormedDest; infer_instance

/-- Stem and extension of a file-name component, after Rust
`Path::file_stem` and `Path::extension`: the extension is the part after
the last dot, except that a name whose only dot is a leading one (such
as `.gitignore`) has no extension. -/
def fileStemExt (name : List Char) : List Char × Option (List Char) :=
  match name.reverse.dropWhile (fun c => c ≠ '.') with
  | [] => (name, none)
  | _ :: stemRev =>
    if stemRev = [] then (name, none)
    else (stemRev.reverse, some (name.reverse.takeWhile (fun c => c ≠ '.')).reverse)

/-- Model of `Downloader::temp_path` (downloader.rs lines 105-109):
`output_path.clone()` followed by `set_extension("part")`.  Rust
`set_extension` replaces the extension of the final component (appending
one only when the component has none). -/
def temp_path (p : String) : String :=
  let name := pathFileName p
  if name = "" ∨ name = "." ∨ name = ".." then p
  else pathDirOf p ++ ⟨(fileStemExt name.data).1⟩ ++ ".part"

/-- Model of `Downloader::lock_path` (downloader.rs lines 111-120) on
POSIX (the `cfg!(windows)` test is false): the lock name is a dot, the
MD5 hex digest of the path string, and `.lock`, placed by
`with_file_name`, which swaps the final component. -/
def lock_path (p : String) : String :=
  pathDirOf p ++ "." ++ path_md5_hash p ++ ".lock"

/-- Modelled from the spec (section 6, lock file naming): the POSIX lock
name the specification prescribes, `.<basename_of_final>.<H>.lock` next
to the destination, with `H` the lowercase hex MD5 of the path string.
Stated only to be compared with the `lock_path` the code computes. -/
def lockPathSpec (p : String) : String :=
  pathDirOf p ++ "." ++ pathFileName p ++ "." ++ path_md5_hash p ++ ".lock"

/-! ### Error taxonomy and HTTP probe

`downloader.rs` constructs the variants `Http`, `Io`, `InvalidRange`,
`RangeNotSatisfiable` and `UnsupportedServer` of `DownloadError`;
payloads (the wrapped `reqwest::Error` / `io::Error`) are not modeled. -/

inductive DownloadError where
  | http
  | io
  | invalidRange
  | rangeNotSatisfiable
  | unsupportedServer
  deriving DecidableEq, Repr

/-- A header that is present carries either a value `to_str` can read
(`some s`) or bytes it cannot (`none`). -/
abbrev HeaderVal := Option String

/-- The headers of the probe response that `probe_remote_size` reads. -/
structure ProbeResp where
  contentRange : Option HeaderVal
  contentLength : Option HeaderVal
  deriving DecidableEq, Repr

/-- Model of the header-reading part of `Downloader::probe_remote_size`
(downloader.rs lines 122-155).  The `Content-Range` header, when
present, is consulted exclusively: its `to_str` failure, a missing
second `/`-piece, or an unparseable total each yield
`UnsupportedServer`, with `return` preventing any fallback.  Only a
wholly absent `Content-Range` reaches the `Content-Length` fallback. -/
def probe_remote_size (r : ProbeResp) : Except DownloadError Nat :=
  match r.contentRange with
  | some hv =>
    match hv with
    | none => .error .unsupportedServer
    | some s =>
      match (splitSlash s).get? 1 with
      | none => .error .unsupportedServer
      | some piece =>
        match parseU64 ⟨piece⟩ with
        | none => .error .unsupportedServer
        | some n => .ok n
  | none =>
    match r.contentLength with
    | some hv =>
      match hv with
      | none => .error .unsupportedServer
      | some s =>
        match parseU64 s with
        | none => .error .unsupportedServer
        | some n => .ok n
    | none => .error .unsupportedServer

/-- The `/total` field of a `Content-Range` header value, as
`probe_remote_size` reads it: the second `'/'`-piece parsed as `u64`.
`none` when the header bytes are unreadable, the piece is missing, or
the parse fails. -/
def contentRangeTotal (hv : HeaderVal) : Option Nat :=
  match hv with
  | none => none
  | some s =>
    match (splitSlash s).get? 1 with
    | none => none
    | some piece => parseU64 ⟨piece⟩

/-! ### Filesystem state and per-attempt environment

The three paths an attempt touches are `final_path`, `temp_path` and
`lock_path`; `FsState` records their existence and the byte sizes of the
two data files.  `AttemptEnv` fixes everything the environment decides
during one `try_download` call: the probe response (or its transport
failure), the transfer response (or its transport failure), the byte
stream, whether the exclusive advisory lock is acquired, and whether
each fallible filesystem call succeeds.  A filesystem call that fails
surfaces as `DownloadError::Io` through the `?` operator, exactly as in
the source. -/

structure FsState where
  finalE : Bool
  finalSize : Nat
  tempE : Bool
  tempSize : Nat
  lockE : Bool
  deriving DecidableEq, Repr

/-- Status and headers of the transfer GET response. -/
structure TransferResp where
  status : Nat
  deriving DecidableEq, Repr

/-- What the response body stream does: deliver `n` bytes then end, or
deliver `k` bytes then fail with a transport (`Http`) or write (`Io`)
error. -/
inductive StreamOutcome where
  | ok (n : Nat)
  | errHttp (k : Nat)
  | errIo (k : Nat)
  deriving DecidableEq, Repr

structure AttemptEnv where
  /-- Probe response; `none` is a transport failure of the probe GET
  (surfaced by `?` as `Http`). -/
  probe : Option ProbeResp
  /-- Whether `std::fs::metadata(final_path)` succeeds in
  `should_skip_download` (its failure is swallowed: do not skip). -/
  metadataOk : Bool
  /-- Whether the stale-reconciliation `rename(final_path, temp_path)`
  succeeds (its failure propagates as `Io`). -/
  renameStaleOk : Bool
  /-- Transfer response; `none` is a transport failure of the GET. -/
  send : Option TransferResp
  /-- Whether opening the lock file succeeds. -/
  createLockOk : Bool
  /-- Whether `try_lock_exclusive` succeeds. -/
  lockAcquired : Bool
  /-- Whether opening the temp file for append succeeds. -/
  openOk : Bool
  stream : StreamOutcome
  /-- Whether the finalizing `rename(temp_path, output_path)` succeeds. -/
  finalizeRenameOk : Bool
  /-- Whether `remove_file(lock_path)` succeeds. -/
  removeLockOk : Bool
  /-- Whether the driver loop 416 rename (whose result is discarded by
  `let _ =`) succeeds. -/
  rename416Ok : Bool
  deriving DecidableEq, Repr

/-- Model of `Downloader::should_skip_download` (downloader.rs lines
158-205) as a state transformer: result is `(skip?, new file state)`.
Note the order of the early returns: an existing temp file returns
"do not skip" before any probe, and a probe `UnsupportedServer` is
swallowed into "do not skip". -/
def should_skip_download (fs : FsState) (env : AttemptEnv) :
    Except DownloadError (Bool × FsState) :=
  if fs.finalE = false then .ok (false, fs)
  else if fs.tempE then .ok (false, fs)
  else
    match env.probe with
    | none => .error .http
    | some r =>
      match probe_remote_size r with
      | .error .unsupportedServer => .ok (false, fs)
      | .error e => .error e
      | .ok remoteSize =>
        if env.metadataOk = false then .ok (false, fs)
        else if fs.finalSize = remoteSize then .ok (true, fs)
        else if env.renameStaleOk then
          .ok (false, { fs with finalE := false, tempE := true,
                                tempSize := fs.finalSize })
        else .error .io

/-- How one `try_download` call ended; `skipped`, `contention` and
`finalized` are the three `Ok(())` return sites of the source. -/
inductive TryOutcome where
  | skipped
  | contention
  | finalized
  | failed (e : DownloadError)
  deriving DecidableEq, Repr

/-- Result of one `try_download` call: outcome, file state afterwards,
and (when the attempt reached the transfer phase) the `existing_len` it
computed. -/
structure TryRes where
  outcome : TryOutcome
  fs : FsState
  existingLen : Option Nat
  deriving DecidableEq, Repr

/-- Model of `Downloader::try_download` (downloader.rs lines 274-324).
The range header construction (lines 287-291) cannot fail for a numeric
offset, so `InvalidRange` is never produced.  The 416 check precedes
`error_for_status` (which fails on statuses 400-599), which precedes
lock-file creation; a failed `try_lock_exclusive` returns `Ok(())` with
the lock file left in place and no bytes transferred. -/
def try_download (fs0 : FsState) (env : AttemptEnv) : TryRes :=
  match should_skip_download fs0 env with
  | .error e => ⟨.failed e, fs0, none⟩
  | .ok (true, fs) => ⟨.skipped, fs, none⟩
  | .ok (false, fs) =>
    let existing := if fs.tempE then fs.tempSize else 0
    match env.send with
    | none => ⟨.failed .http, fs, some existing⟩
    | some resp =>
      if resp.status = 416 then ⟨.failed .rangeNotSatisfiable, fs, some existing⟩
      else if 400 ≤ resp.status ∧ resp.status ≤ 599 then
        ⟨.failed .http, fs, some existing⟩
      else if env.createLockOk = false then ⟨.failed .io, fs, some existing⟩
      else
        let fs1 := { fs with lockE := true }
        if env.lockAcquired = false then ⟨.contention, fs1, some existing⟩
        else if env.openOk = false then ⟨.failed .io, fs1, some existing⟩
        else
          let fs2 := { fs1 with tempE := true, tempSize := existing }
          match env.stream with
          | .errHttp k =>
            ⟨.failed .http, { fs2 with tempSize := existing + k }, some existing⟩
          | .errIo k =>
            ⟨.failed .io, { fs2 with tempSize := existing + k }, some existing⟩
          | .ok n =>
            let fs3 := { fs2 with tempSize := existing + n }
            if env.finalizeRenameOk = false then ⟨.failed .io, fs3, some existing⟩
            else
              let fs4 : FsState :=
                { finalE := true, finalSize := existing + n,
                  tempE := false, tempSize := 0, lockE := true }
              if env.removeLockOk = false then ⟨.failed .io, fs4, some existing⟩
              else ⟨.finalized, { fs4 with lockE := false }, some existing⟩

/-- `MAX_RETRIES` (downloader.rs line 19). -/
def MAX_RETRIES : Nat := 5

/-- The atomic finalize: `rename(temp_path, output_path)` on the model
state. -/
def moveTempToFinal (fs : FsState) : FsState :=
  { finalE := true, finalSize := fs.tempSize, tempE := false,
    tempSize := 0, lockE := fs.lockE }

/-- Which `return Ok(())` site of the driver produced a success. -/
inductive OkPath where
  | skipped
  | contention
  | finalized
  | range416
  | unsupported
  deriving DecidableEq, Repr

instance {ε α : Type} [DecidableEq ε] [DecidableEq α] : DecidableEq (Except ε α) :=
  fun a b =>
  match a, b with
  | .ok x, .ok y =>
    if h : x = y then isTrue (by rw [h]) else isFalse (by simp [h])
  | .ok _, .error _ => isFalse (by simp)
  | .error _, .ok _ => isFalse (by simp)
  | .error e, .error f =>
    if h : e = f then isTrue (by rw [h]) else isFalse (by simp [h])

/-- Observable result of a `download()` run: the returned value, the
final file state, the sleeps performed (in seconds, in order), the
number of `try_download` calls, which success site returned (if any),
and whether the trailing `unreachable!` was reached. -/
structure RunRes where
  res : Except DownloadError Unit
  fs : FsState
  sleeps : List Nat
  calls : Nat
  okTag : Option OkPath
  panicked : Bool
  deriving DecidableEq, Repr

/-- Model of the `for attempt in 0..MAX_RETRIES` loop of
`Downloader::download` (downloader.rs lines 326-349), one list element
per remaining loop index.  Falling off the list is the source
`unreachable!` (line 348), recorded by `panicked`; its `res` field is a
dummy.  A 416 failure renames temp to final when the temp file exists
(the rename result is discarded) and returns success; `UnsupportedServer`
returns success; any other failure returns the error when
`attempt == MAX_RETRIES - 1` and otherwise sleeps `2 ^ attempt` seconds
and continues. -/
def downloadLoop (envs : Nat → AttemptEnv) : List Nat → FsState → RunRes
  | [], fs => ⟨.ok (), fs, [], 0, none, true⟩
  | attempt :: rest, fs =>
    let t := try_download fs (envs attempt)
    match t.outcome with
    | .skipped => ⟨.ok (), t.fs, [], 1, some .skipped, false⟩
    | .contention => ⟨.ok (), t.fs, [], 1, some .contention, false⟩
    | .finalized => ⟨.ok (), t.fs, [], 1, some .finalized, false⟩
    | .failed .rangeNotSatisfiable =>
      let fs2 :=
        if t.fs.tempE then
          if (envs attempt).rename416Ok then moveTempToFinal t.fs else t.fs
        else t.fs
      ⟨.ok (), fs2, [], 1, some .range416, false⟩
    | .failed .unsupportedServer => ⟨.ok (), t.fs, [], 1, some .unsupported, false⟩
    | .failed e =>
      if attempt = MAX_RETRIES - 1 then ⟨.error e, t.fs, [], 1, none, false⟩
      else
        let r := downloadLoop envs rest t.fs
        ⟨r.res, r.fs, 2 ^ attempt :: r.sleeps, r.calls + 1, r.okTag, r.panicked⟩

/-- Model of `Downloader::download` (downloader.rs lines 326-349). -/
def download (fs : FsState) (envs : Nat → AttemptEnv) : RunRes :=
  downloadLoop envs (List.range MAX_RETRIES) fs

/-! ### Progress renderer (progress.rs)

`safe_update` writes a fixed ANSI sequence around a possibly truncated
text; the model returns the concatenation of everything written to
stdout by one call.  `visible_len` strips CSI sequences with the regex
`ESC LBRACKET [0-9;]* [A-Za-z]` and counts remaining characters;
`truncate_ansi` walks the characters with a copy-escapes-whole state
machine (the nested `while` of the source, with the inner loop expressed
as an in-escape flag). -/

/-- The escape character. -/
def escChar : Char := '\x1B'

/-- Rust `char::is_ascii_alphabetic`. -/
def isAsciiAlphaB (c : Char) : Bool :=
  decide (('A' ≤ c ∧ c ≤ 'Z') ∨ ('a' ≤ c ∧ c ≤ 'z'))

/-- A character of the `[0-9;]` class of the ANSI regex. -/
def isCsiParamB (c : Char) : Bool :=
  decide (('0' ≤ c ∧ c ≤ '9') ∨ c = ';')

/-- Consume `[0-9;]*` then one ASCII letter; `some rest` on a regex
match, `none` when the CSI pattern does not match here. -/
def munchCsi : List Char → Option (List Char)
  | [] => none
  | c :: cs =>
    if isCsiParamB c then munchCsi cs
    else if isAsciiAlphaB c then some cs
    else none

/-- Leftmost-first removal of all matches of the ANSI regex
`ESC LBRACKET [0-9;]* [A-Za-z]` (progress.rs line 11), with a fuel
argument (one unit per character kept or match removed; fuel equal to
the list length always suffices, the fuel-out branch is unreachable). -/
def stripAnsi : Nat → List Char → List Char
  | 0, l => l
  | _ + 1, [] => []
  | f + 1, c :: cs =>
    if c = escChar then
      match cs with
      | '[' :: cs2 =>
        match munchCsi cs2 with
        | some rest => stripAnsi f rest
        | none => c :: stripAnsi f cs
      | _ => c :: stripAnsi f cs
    else c :: stripAnsi f cs

/-- Model of `visible_len` (progress.rs lines 14-16): character count
after stripping all ANSI CSI matches. -/
def visible_len (s : String) : Nat :=
  (stripAnsi s.data.length s.data).length

/-- The character walk of `truncate_ansi` (progress.rs lines 18-49).
When `inEsc` is true the previous character was inside an escape being
copied whole: the walk copies this one too, uncounted, leaving escape
mode after an ASCII letter.  Outside an escape, an ESC enters escape
mode (copied, uncounted); otherwise the walk stops when the visible
budget is spent, and else copies the character and counts it. -/
def truncGo (maxVisible : Nat) : List Char → Bool → Nat → List Char
  | [], _, _ => []
  | c :: cs, true, vis => c :: truncGo maxVisible cs (!(isAsciiAlphaB c)) vis
  | c :: cs, false, vis =>
    if c = escChar then c :: truncGo maxVisible cs true vis
    else if maxVisible ≤ vis then []
    else c :: truncGo maxVisible cs false (vis + 1)

/-- Model of `truncate_ansi` (progress.rs lines 18-49). -/
def truncate_ansi (s : String) (maxVisible : Nat) : String :=
  ⟨truncGo maxVisible s.data false 0⟩

/-- Visible characters as the truncation scanner counts them: characters
outside the ESC-to-first-ASCII-letter runs it copies whole. -/
def scanVisibleGo : List Char → Bool → Nat
  | [], _ => 0
  | c :: cs, true => scanVisibleGo cs (!(isAsciiAlphaB c))
  | c :: cs, false =>
    if c = escChar then scanVisibleGo cs true else 1 + scanVisibleGo cs false

/-- Scanner-visible width of a string. -/
def scan_visible (s : String) : Nat := scanVisibleGo s.data false

/-- Model of `safe_update` (progress.rs lines 55-76): the full byte
sequence one call writes to stdout (emitted as a single flush).
`width` is what `crossterm::terminal::size()` reported (its failure
fallback 120 happens outside the model).  Saturating subtractions are
Nat subtractions. -/
def safe_update (line : Nat) (content : String) (totalLines width : Nat) : String :=
  let safe := width - 1
  let finalText :=
    if safe ≤ visible_len content then truncate_ansi content safe else content
  let up := totalLines - line
  "\x1B[?7l" ++ "\x1B[" ++ Nat.repr up ++ "A" ++ "\r" ++ "\x1B[2K"
    ++ finalText ++ "\x1B[" ++ Nat.repr up ++ "B" ++ "\x1B[?7h"

/-- Model of `ProgressManager::update` with `LineBuffer::flush_line`
(progress.rs lines 135-141 and 177-181): an id below the track count
redraws its row via `safe_update`; an unregistered id writes nothing. -/
def update_output (id : Nat) (text : String) (total width : Nat) : Option String :=
  if id < total then some (safe_update id text total width) else none

/-! ## Lemmas about the path model -/

lemma takeWhile_append_all (p : Char → Bool) (l1 l2 : List Char)
    (h : ∀ c ∈ l1, p c = true) :
    (l1 ++ l2).takeWhile p = l1 ++ l2.takeWhile p := by
  induction l1 with
  | nil => simp
  | cons c cs ih =>
    have hc : p c = true := h c (by simp)
    simp only [List.cons_append, List.takeWhile_cons, hc, if_true]
    rw [ih (fun x hx => h x (by simp [hx]))]

lemma dropWhile_append_all (p : Char → Bool) (l1 l2 : List Char)
    (h : ∀ c ∈ l1, p c = true) :
    (l1 ++ l2).dropWhile p = l2.dropWhile p := by
  induction l1 with
  | nil => simp
  | cons c cs ih =>
    have hc : p c = true := h c (by simp)
    simp only [List.cons_append, List.dropWhile_cons, hc, if_true]
    exact ih (fun x hx => h x (by simp [hx]))

lemma pathDirL_append_fileNameL (l : List Char) :
    pathDirL l ++ pathFileNameL l = l := by
  unfold pathDirL pathFileNameL
  rw [← List.reverse_append, List.takeWhile_append_dropWhile, List.reverse_reverse]

lemma mem_pathFileNameL (l : List Char) : ∀ c ∈ pathFileNameL l, c ≠ '/' := by
  intro c hc
  unfold pathFileNameL at hc
  have := List.mem_takeWhile_imp (List.mem_reverse.mp hc)
  simpa using this

lemma pathDirL_shape (l : List Char) :
    pathDirL l = [] ∨ ∃ t, pathDirL l = t ++ ['/'] := by
  unfold pathDirL
  induction l.reverse with
  | nil => left; rfl
  | cons c cs ih =>
    by_cases hc : c = '/'
    · subst hc
      right
      refine ⟨cs.reverse, ?_⟩
      rw [List.dropWhile_cons]
      simp
    · rw [List.dropWhile_cons]
      simpa [hc] using ih

lemma pathFileNameL_append (d n : List Char)
    (hd : d = [] ∨ ∃ t, d = t ++ ['/']) (hn : ∀ c ∈ n, c ≠ '/') :
    pathFileNameL (d ++ n) = n ∧ pathDirL (d ++ n) = d := by
  unfold pathFileNameL pathDirL
  rw [List.reverse_append]
  have hall : ∀ c ∈ n.reverse, (fun c => decide (c ≠ '/')) c = true := by
    intro c hc
    simp [hn c (List.mem_reverse.mp hc)]
  rw [takeWhile_append_all _ _ _ hall, dropWhile_append_all _ _ _ hall]
  rcases hd with rfl | ⟨t, rfl⟩
  · simp
  · have hrev : (t ++ ['/']).reverse = '/' :: t.reverse := by simp
    rw [hrev]
    constructor
    · rw [List.takeWhile_cons]
      simp
    · rw [List.dropWhile_cons]
      simp

lemma dropWhile_head_false (p : Char → Bool) :
    ∀ (l : List Char) (x : Char) (s : List Char),
      l.dropWhile p = x :: s → p x = false := by
  intro l
  induction l with
  | nil => intro x s h; simp at h
  | cons c cs ih =>
    intro x s h
    rw [List.dropWhile_cons] at h
    by_cases hc : p c = true
    · rw [if_pos hc] at h
      exact ih x s h
    · rw [if_neg hc] at h
      cases h
      exact Bool.eq_false_iff.mpr hc

lemma fileStemExt_eq_none (n : List Char) (h : (fileStemExt n).2 = none) :
    (fileStemExt n).1 = n := by
  unfold fileStemExt at h ⊢
  cases hdrop : n.reverse.dropWhile (fun c => c ≠ '.') with
  | nil => rfl
  | cons x s =>
    rw [hdrop] at h
    dsimp only at h ⊢
    by_cases hs : s = []
    · rw [if_pos hs]
    · rw [if_neg hs] at h
      simp at h

lemma fileStemExt_eq_some (n e : List Char) (h : (fileStemExt n).2 = some e) :
    n = (fileStemExt n).1 ++ '.' :: e := by
  unfold fileStemExt at h ⊢
  cases hdrop : n.reverse.dropWhile (fun c => c ≠ '.') with
  | nil => rw [hdrop] at h; simp at h
  | cons x s =>
    rw [hdrop] at h
    dsimp only at h ⊢
    by_cases hs : s = []
    · rw [if_pos hs] at h; simp at h
    · rw [if_neg hs] at h ⊢
      have hx : x = '.' := by
        have := dropWhile_head_false _ _ _ _ hdrop
        simpa using this
      have hsplit : n.reverse = n.reverse.takeWhile (fun c => c ≠ '.') ++ (x :: s) := by
        rw [← hdrop, List.takeWhile_append_dropWhile]
      have hrev := congrArg List.reverse hsplit
      rw [List.reverse_reverse, List.reverse_append] at hrev
      have he : e = (n.reverse.takeWhile (fun c => c ≠ '.')).reverse := by
        simpa using h.symm
      rw [hrev, hx, he]
      simp

lemma fileStemExt_mem (n : List Char) : ∀ c ∈ (fileStemExt n).1, c ∈ n := by
  intro c hc
  cases hext : (fileStemExt n).2 with
  | none => rw [fileStemExt_eq_none n hext] at hc; exact hc
  | some e =>
    rw [fileStemExt_eq_some n e hext]
    exact List.mem_append_left _ hc

/-- The data of `".part"`. -/
lemma part_data : (".part" : String).data = ['.', 'p', 'a', 'r', 't'] := rfl

lemma wellFormedDest_name_ne (p : String) (h : wellFormedDest p) :
    ¬(pathFileName p = "" ∨ pathFileName p = "." ∨ pathFileName p = "..") := by
  rcases h with ⟨h1, h2, h3⟩
  simp [h1, h2, h3]

lemma temp_path_data (p : String) (h : wellFormedDest p) :
    (temp_path p).data =
      pathDirL p.data ++ ((fileStemExt (pathFileNameL p.data)).1 ++ ('.' :: ['p', 'a', 'r', 't'])) := by
  unfold temp_path
  rw [if_neg (wellFormedDest_name_ne p h)]
  show (pathDirOf p ++ _ ++ _).data = _
  rw [String.data_append, String.data_append]
  simp [pathDirOf, pathFileName, part_data]

/-! ## Lemmas about the MD5 hex digest -/

lemma md5Bytes_length (m : List Nat) : (md5Bytes m).length = 16 := by
  unfold md5Bytes wordLE
  simp

lemma wordLE_lt (w : Nat) : ∀ b ∈ wordLE w, b < 256 := by
  intro b hb
  unfold wordLE at hb
  rcases List.mem_cons.mp hb with rfl | hb
  · exact Nat.mod_lt _ (by norm_num)
  rcases List.mem_cons.mp hb with rfl | hb
  · exact Nat.mod_lt _ (by norm_num)
  rcases List.mem_cons.mp hb with rfl | hb
  · exact Nat.mod_lt _ (by norm_num)
  rcases List.mem_cons.mp hb with rfl | hb
  · exact Nat.mod_lt _ (by norm_num)
  simp at hb

lemma md5Bytes_lt (m : List Nat) : ∀ b ∈ md5Bytes m, b < 256 := by
  intro b hb
  simp only [md5Bytes, List.mem_append] at hb
  rcases hb with ((h | h) | h) | h <;> exact wordLE_lt _ b h

lemma hexDigit_mem (n : Nat) (h : n < 16) :
    hexDigit n ∈ ("0123456789abcdef" : String).data := by
  interval_cases n <;> decide

lemma hexOfByte_mem (b : Nat) (hb : b < 256) :
    ∀ c ∈ hexOfByte b, c ∈ ("0123456789abcdef" : String).data := by
  intro c hc
  unfold hexOfByte at hc
  rcases List.mem_cons.mp hc with rfl | hc2
  · exact hexDigit_mem _ ((Nat.div_lt_iff_lt_mul (by norm_num)).mpr (by omega))
  · rcases List.mem_cons.mp hc2 with rfl | hc3
    · exact hexDigit_mem _ (Nat.mod_lt _ (by norm_num))
    · simp at hc3

lemma path_md5_hash_length (p : String) : (path_md5_hash p).length = 32 := by
  show ((md5Bytes (strBytes p)).map hexOfByte).flatten.length = 32
  rw [List.length_flatten, List.map_map]
  have hconst : (md5Bytes (strBytes p)).map (List.length ∘ hexOfByte)
      = (md5Bytes (strBytes p)).map (fun _ => 2) :=
    List.map_congr_left (fun a _ => rfl)
  rw [hconst, List.map_const', List.sum_replicate, md5Bytes_length]
  norm_num

lemma path_md5_hash_mem (p : String) :
    ∀ c ∈ (path_md5_hash p).data, c ∈ ("0123456789abcdef" : String).data := by
  intro c hc
  have hc' : c ∈ ((md5Bytes (strBytes p)).map hexOfByte).flatten := hc
  rcases List.mem_flatten.mp hc' with ⟨l, hl, hcl⟩
  rcases List.mem_map.mp hl with ⟨b, hb, rfl⟩
  exact hexOfByte_mem b (md5Bytes_lt _ b hb) c hcl

lemma hex_ne_slash (c : Char) (h : c ∈ ("0123456789abcdef" : String).data) :
    c ≠ '/' := by
  intro hEq
  subst hEq
  exact absurd h (by decide)

lemma lock_path_data (p : String) :
    (lock_path p).data =
      pathDirL p.data ++ ('.' :: ((path_md5_hash p).data ++ ['.', 'l', 'o', 'c', 'k'])) := by
  show (pathDirOf p ++ "." ++ path_md5_hash p ++ ".lock").data = _
  rw [String.data_append, String.data_append, String.data_append]
  simp [pathDirOf]

/-! ## C5: the staging path -/

/-- C5: the claim says the staging path is the string `final_path` with
`".part"` appended, so that `video.bin` stages into `video.bin.part`.
The code calls `set_extension("part")`, which replaces the extension:
`video.bin` stages into `video.part`. -/
theorem C5_counterexample :
    temp_path "video.bin" = "video.part"
      ∧ temp_path "video.bin" ≠ "video.bin" ++ ".part" := by
  decide

/-- C5 (amended): the staging path is `final_path` with its extension
replaced by `part`, placed in the same directory with the same stem; it
equals `final_path ++ ".part"` exactly when the file name of
`final_path` has no extension. -/
theorem C5_amended (p : String) (h : wellFormedDest p) :
    pathDirOf (temp_path p) = pathDirOf p
      ∧ pathFileName (temp_path p)
          = (⟨(fileStemExt (pathFileName p).data).1⟩ : String) ++ ".part"
      ∧ (temp_path p = p ++ ".part"
          ↔ (fileStemExt (pathFileName p).data).2 = none) := by
  have hnm : (pathFileName p).data = pathFileNameL p.data := rfl
  have hmem : ∀ c ∈ (fileStemExt (pathFileNameL p.data)).1 ++ ('.' :: ['p', 'a', 'r', 't']),
      c ≠ '/' := by
    intro c hc
    rcases List.mem_append.mp hc with hst | hpt
    · exact mem_pathFileNameL p.data c (fileStemExt_mem _ c hst)
    · rcases List.mem_cons.mp hpt with rfl | hpt2
      · decide
      · fin_cases hpt2 <;> decide
  have key := pathFileNameL_append (pathDirL p.data)
    ((fileStemExt (pathFileNameL p.data)).1 ++ ('.' :: ['p', 'a', 'r', 't']))
    (pathDirL_shape p.data) hmem
  have hdata := temp_path_data p h
  refine ⟨?_, ?_, ?_⟩
  · show (⟨pathDirL (temp_path p).data⟩ : String) = ⟨pathDirL p.data⟩
    rw [hdata, key.2]
  · show (⟨pathFileNameL (temp_path p).data⟩ : String) = _
    rw [hdata, key.1]
    apply String.ext
    simp [String.data_append, hnm]
  · rw [hnm]
    constructor
    · intro heq
      have hdat : (temp_path p).data = (p ++ ".part").data := by rw [heq]
      rw [hdata, String.data_append, part_data] at hdat
      have hdat2 : pathDirL p.data
            ++ ((fileStemExt (pathFileNameL p.data)).1 ++ ('.' :: ['p', 'a', 'r', 't']))
          = pathDirL p.data ++ (pathFileNameL p.data ++ ('.' :: ['p', 'a', 'r', 't'])) := by
        rw [hdat, ← List.append_assoc, pathDirL_append_fileNameL]
      have hcancel := List.append_cancel_left hdat2
      cases hext : (fileStemExt (pathFileNameL p.data)).2 with
      | none => rfl
      | some e =>
        exfalso
        have hlen := congrArg List.length hcancel
        have hdecomp := congrArg List.length (fileStemExt_eq_some _ e hext)
        simp [List.length_append] at hlen hdecomp
        omega
    · intro hext
      apply String.ext
      rw [hdata, String.data_append, part_data, fileStemExt_eq_none _ hext,
        ← List.append_assoc, pathDirL_append_fileNameL]

/-- C5 (witness): the amended statement at the concrete destination
`a/b.c`. -/
theorem C5_witness :
    pathDirOf (temp_path "a/b.c") = pathDirOf "a/b.c"
      ∧ pathFileName (temp_path "a/b.c")
          = (⟨(fileStemExt (pathFileName "a/b.c").data).1⟩ : String) ++ ".part"
      ∧ (temp_path "a/b.c" = "a/b.c" ++ ".part"
          ↔ (fileStemExt (pathFileName "a/b.c").data).2 = none) :=
  C5_amended "a/b.c" (by decide)

/-! ## C6: the lock path -/

set_option maxRecDepth 40000 in
/-- C6: the claim says the POSIX lock name is
`.<basename_of_final>.<H>.lock`; the code builds `.<H>.lock` with no
basename component (downloader.rs line 116).  At `video.bin`, the code
yields `.034c9ff6b2ac170ce247ed5990b4c6c2.lock`, not the claimed
`.video.bin.034c9ff6b2ac170ce247ed5990b4c6c2.lock`. -/
theorem C6_counterexample :
    lock_path "video.bin" = ".034c9ff6b2ac170ce247ed5990b4c6c2.lock"
      ∧ lockPathSpec "video.bin" = ".video.bin.034c9ff6b2ac170ce247ed5990b4c6c2.lock"
      ∧ lock_path "video.bin" ≠ lockPathSpec "video.bin" := by
  decide

/-- C6 (amended): on POSIX the lock file sits next to `final_path` and
is named `.<H>.lock` (no basename component), where `H` is the 32
character lowercase hex MD5 of the UTF-8 bytes of the string form of
`final_path`. -/
theorem C6_amended (p : String) (hwf : wellFormedDest p) :
    pathDirOf (lock_path p) = pathDirOf p
      ∧ pathFileName (lock_path p) = "." ++ path_md5_hash p ++ ".lock"
      ∧ (path_md5_hash p).length = 32
      ∧ (∀ c ∈ (path_md5_hash p).data, c ∈ ("0123456789abcdef" : String).data) := by
  have hmem : ∀ c ∈ '.' :: ((path_md5_hash p).data ++ ['.', 'l', 'o', 'c', 'k']),
      c ≠ '/' := by
    intro c hc
    rcases List.mem_cons.mp hc with rfl | hc2
    · decide
    · rcases List.mem_append.mp hc2 with hhash | hlock
      · exact hex_ne_slash c (path_md5_hash_mem p c hhash)
      · fin_cases hlock <;> decide
  have key := pathFileNameL_append (pathDirL p.data)
    ('.' :: ((path_md5_hash p).data ++ ['.', 'l', 'o', 'c', 'k']))
    (pathDirL_shape p.data) hmem
  refine ⟨?_, ?_, path_md5_hash_length p, path_md5_hash_mem p⟩
  · show (⟨pathDirL (lock_path p).data⟩ : String) = ⟨pathDirL p.data⟩
    rw [lock_path_data, key.2]
  · show (⟨pathFileNameL (lock_path p).data⟩ : String) = _
    rw [lock_path_data, key.1]
    apply String.ext
    rw [String.data_append, String.data_append]
    rfl

/-- C6 (witness): the amended statement at the concrete destination
`downloads/video.bin`. -/
theorem C6_witness :
    pathDirOf (lock_path "downloads/video.bin") = pathDirOf "downloads/video.bin"
      ∧ pathFileName (lock_path "downloads/video.bin")
          = "." ++ path_md5_hash "downloads/video.bin" ++ ".lock"
      ∧ (path_md5_hash "downloads/video.bin").length = 32
      ∧ (∀ c ∈ (path_md5_hash "downloads/video.bin").data,
          c ∈ ("0123456789abcdef" : String).data) :=
  C6_amended "downloads/video.bin" (by decide)

/-! ## Lemmas about the download state machine -/

lemma should_skip_ok_true (fs fs' : FsState) (env : AttemptEnv)
    (h : should_skip_download fs env = .ok (true, fs')) :
    fs' = fs ∧ fs.finalE = true ∧ fs.tempE = false := by
  unfold should_skip_download at h
  by_cases h1 : fs.finalE = false
  · rw [if_pos h1] at h; simp at h
  · rw [if_neg h1] at h
    by_cases h2 : fs.tempE
    · rw [if_pos h2] at h; simp at h
    · rw [if_neg h2] at h
      cases hp : env.probe with
      | none => rw [hp] at h; simp at h
      | some r =>
        rw [hp] at h
        dsimp only at h
        cases hpr : probe_remote_size r with
        | error e => rw [hpr] at h; cases e <;> simp at h
        | ok remote =>
          rw [hpr] at h
          dsimp only at h
          by_cases h3 : env.metadataOk = false
          · rw [if_pos h3] at h; simp at h
          · rw [if_neg h3] at h
            by_cases h4 : fs.finalSize = remote
            · rw [if_pos h4] at h
              simp only [Except.ok.injEq, Prod.mk.injEq, true_and] at h
              refine ⟨h.symm, ?_, ?_⟩
              · simpa using h1
              · simpa using h2
            · rw [if_neg h4] at h
              by_cases h5 : env.renameStaleOk
              · rw [if_pos h5] at h; simp at h
              · rw [if_neg h5] at h; simp at h

lemma should_skip_no_unsup (fs : FsState) (env : AttemptEnv) :
    should_skip_download fs env ≠ .error .unsupportedServer := by
  unfold should_skip_download
  by_cases h1 : fs.finalE = false
  · rw [if_pos h1]; simp
  · rw [if_neg h1]
    by_cases h2 : fs.tempE
    · rw [if_pos h2]; simp
    · rw [if_neg h2]
      cases hp : env.probe with
      | none => simp
      | some r =>
        dsimp only
        cases hpr : probe_remote_size r with
        | error e => cases e <;> simp
        | ok remote =>
          dsimp only
          by_cases h3 : env.metadataOk = false
          · rw [if_pos h3]; simp
          · rw [if_neg h3]
            by_cases h4 : fs.finalSize = remote
            · rw [if_pos h4]; simp
            · rw [if_neg h4]
              by_cases h5 : env.renameStaleOk
              · rw [if_pos h5]; simp
              · rw [if_neg h5]; simp

lemma probe_error_is_unsup (r : ProbeResp) (e : DownloadError)
    (h : probe_remote_size r = .error e) : e = .unsupportedServer := by
  unfold probe_remote_size at h
  cases hcr : r.contentRange with
  | some hv =>
    rw [hcr] at h
    cases hv with
    | none => simp at h; exact h.symm
    | some s =>
      dsimp only at h
      cases hsp : (splitSlash s).get? 1 with
      | none => rw [hsp] at h; simp at h; exact h.symm
      | some piece =>
        rw [hsp] at h
        dsimp only at h
        cases hp : parseU64 ⟨piece⟩ with
        | none => rw [hp] at h; simp at h; exact h.symm
        | some n => rw [hp] at h; simp at h
  | none =>
    rw [hcr] at h
    cases hcl : r.contentLength with
    | none => rw [hcl] at h; simp at h; exact h.symm
    | some hv =>
      rw [hcl] at h
      cases hv with
      | none => simp at h; exact h.symm
      | some s =>
        dsimp only at h
        cases hp : parseU64 s with
        | none => rw [hp] at h; simp at h; exact h.symm
        | some n => rw [hp] at h; simp at h

/-- Consequences of each `try_download` outcome for the file state: a
finalized attempt leaves the final file present, the temp file gone and
the lock file removed; a skipped attempt had the final file present and
no temp file; a lock-contention success leaves the lock file present. -/
lemma try_download_spec (fs : FsState) (env : AttemptEnv) :
    ((try_download fs env).outcome = .finalized →
        (try_download fs env).fs.finalE = true
          ∧ (try_download fs env).fs.tempE = false
          ∧ (try_download fs env).fs.lockE = false)
      ∧ ((try_download fs env).outcome = .skipped →
          (try_download fs env).fs.finalE = true
            ∧ (try_download fs env).fs.tempE = false)
      ∧ ((try_download fs env).outcome = .contention →
          (try_download fs env).fs.lockE = true) := by
  unfold try_download
  cases hss : should_skip_download fs env with
  | error e => simp
  | ok pair =>
    obtain ⟨b, fs1⟩ := pair
    cases b with
    | true =>
      have hspec := should_skip_ok_true fs fs1 env hss
      simp [hspec.1, hspec.2.1, hspec.2.2]
    | false =>
      dsimp only
      cases hsend : env.send with
      | none => simp
      | some resp =>
        dsimp only
        by_cases h416 : resp.status = 416
        · simp [h416]
        · rw [if_neg h416]
          by_cases herr : 400 ≤ resp.status ∧ resp.status ≤ 599
          · rw [if_pos herr]; simp
          · rw [if_neg herr]
            by_cases hcl : env.createLockOk = false
            · rw [if_pos hcl]; simp
            · rw [if_neg hcl]
              by_cases hlk : env.lockAcquired = false
              · rw [if_pos hlk]; simp
              · rw [if_neg hlk]
                by_cases hop : env.openOk = false
                · rw [if_pos hop]; simp
                · rw [if_neg hop]
                  cases hstream : env.stream with
                  | errHttp k => simp
                  | errIo k => simp
                  | ok n =>
                    dsimp only
                    by_cases hfr : env.finalizeRenameOk = false
                    · rw [if_pos hfr]; simp
                    · rw [if_neg hfr]
                      by_cases hrl : env.removeLockOk = false
                      · rw [if_pos hrl]; simp
                      · rw [if_neg hrl]; simp

/-- `try_download` never fails with `UnsupportedServer`: the probe is
only consulted inside `should_skip_download`, which swallows that
error. -/
lemma try_no_unsup (fs : FsState) (env : AttemptEnv) :
    (try_download fs env).outcome ≠ .failed .unsupportedServer := by
  unfold try_download
  cases hss : should_skip_download fs env with
  | error e =>
    cases hpe : e with
    | unsupportedServer =>
      exact absurd (hpe ▸ hss) (should_skip_no_unsup fs env)
    | http => simp
    | io => simp
    | invalidRange => simp
    | rangeNotSatisfiable => simp
  | ok pair =>
    obtain ⟨b, fs1⟩ := pair
    cases b with
    | true => simp
    | false =>
      dsimp only
      cases hsend : env.send with
      | none => simp
      | some resp =>
        dsimp only
        by_cases h416 : resp.status = 416
        · simp [h416]
        · rw [if_neg h416]
          by_cases herr : 400 ≤ resp.status ∧ resp.status ≤ 599
          · rw [if_pos herr]; simp
          · rw [if_neg herr]
            by_cases hcl : env.createLockOk = false
            · rw [if_pos hcl]; simp
            · rw [if_neg hcl]
              by_cases hlk : env.lockAcquired = false
              · rw [if_pos hlk]; simp
              · rw [if_neg hlk]
                by_cases hop : env.openOk = false
                · rw [if_pos hop]; simp
                · rw [if_neg hop]
                  cases hstream : env.stream with
                  | errHttp k => simp
                  | errIo k => simp
                  | ok n =>
                    dsimp only
                    by_cases hfr : env.finalizeRenameOk = false
                    · rw [if_pos hfr]; simp
                    · rw [if_neg hfr]
                      by_cases hrl : env.removeLockOk = false
                      · rw [if_pos hrl]; simp
                      · rw [if_neg hrl]; simp

/-- The `existing_len` a transfer-phase attempt computes is the size of
the temp file after reconciliation (0 when it is absent). -/
lemma try_existingLen (fs fs1 : FsState) (env : AttemptEnv)
    (h : should_skip_download fs env = .ok (false, fs1)) :
    (try_download fs env).existingLen = some (if fs1.tempE then fs1.tempSize else 0) := by
  unfold try_download
  rw [h]
  dsimp only
  cases hsend : env.send with
  | none => rfl
  | some resp =>
    dsimp only
    by_cases h416 : resp.status = 416
    · simp [h416]
    · rw [if_neg h416]
      by_cases herr : 400 ≤ resp.status ∧ resp.status ≤ 599
      · rw [if_pos herr]
      · rw [if_neg herr]
        by_cases hcl : env.createLockOk = false
        · rw [if_pos hcl]
        · rw [if_neg hcl]
          by_cases hlk : env.lockAcquired = false
          · rw [if_pos hlk]
          · rw [if_neg hlk]
            by_cases hop : env.openOk = false
            · rw [if_pos hop]
            · rw [if_neg hop]
              cases hstream : env.stream with
              | errHttp k => rfl
              | errIo k => rfl
              | ok n =>
                dsimp only
                by_cases hfr : env.finalizeRenameOk = false
                · rw [if_pos hfr]
                · rw [if_neg hfr]
                  by_cases hrl : env.removeLockOk = false
                  · rw [if_pos hrl]
                  · rw [if_neg hrl]

/-- File-state facts carried through the driver loop, by induction on
the remaining loop indices. -/
lemma downloadLoop_okTag (envs : Nat → AttemptEnv) :
    ∀ (l : List Nat) (fs : FsState),
      (((downloadLoop envs l fs).okTag = some .finalized →
          (downloadLoop envs l fs).fs.finalE = true
            ∧ (downloadLoop envs l fs).fs.tempE = false
            ∧ (downloadLoop envs l fs).fs.lockE = false)
        ∧ ((downloadLoop envs l fs).okTag = some .skipped →
            (downloadLoop envs l fs).fs.finalE = true
              ∧ (downloadLoop envs l fs).fs.tempE = false)
        ∧ ((downloadLoop envs l fs).okTag = some .contention →
            (downloadLoop envs l fs).fs.lockE = true)) := by
  intro l
  induction l with
  | nil => intro fs; simp [downloadLoop]
  | cons a rest ih =>
    intro fs
    simp only [downloadLoop]
    cases hout : (try_download fs (envs a)).outcome with
    | skipped =>
      have hsp := (try_download_spec fs (envs a)).2.1 hout
      simpa using hsp
    | contention =>
      have hsp := (try_download_spec fs (envs a)).2.2 hout
      simpa using hsp
    | finalized =>
      have hsp := (try_download_spec fs (envs a)).1 hout
      simpa using hsp
    | failed e =>
      cases e
      case rangeNotSatisfiable => simp
      case unsupportedServer => simp
      all_goals
        (by_cases ha : a = MAX_RETRIES - 1
         · simp [ha]
         · simp only [ha, if_false]
           simpa using ih ((try_download fs (envs a)).fs))

/-- The driver loop always returns from an iteration once the list of
remaining indices contains `MAX_RETRIES - 1`: it never falls off the
end, and it makes between one and `length` attempts. -/
lemma downloadLoop_total (envs : Nat → AttemptEnv) :
    ∀ (l : List Nat) (fs : FsState), (MAX_RETRIES - 1) ∈ l →
      (downloadLoop envs l fs).panicked = false
        ∧ 1 ≤ (downloadLoop envs l fs).calls
        ∧ (downloadLoop envs l fs).calls ≤ l.length := by
  intro l
  induction l with
  | nil => intro fs h; simp at h
  | cons a rest ih =>
    intro fs hmem
    simp only [downloadLoop]
    cases hout : (try_download fs (envs a)).outcome with
    | skipped => simp
    | contention => simp
    | finalized => simp
    | failed e =>
      cases e
      case rangeNotSatisfiable => simp
      case unsupportedServer => simp
      all_goals
        (by_cases ha : a = MAX_RETRIES - 1
         · simp [ha]
         · have hmem2 : MAX_RETRIES - 1 ∈ rest := by
             rcases List.mem_cons.mp hmem with hh | hh
             · exact absurd hh.symm ha
             · exact hh
           have hr := ih ((try_download fs (envs a)).fs) hmem2
           simp only [ha, if_false, List.length_cons]
           exact ⟨hr.1, by omega, by omega⟩)


/-! ## C1: state after a successful download -/

/-- C1: the claim asserts that after every successful `download()` —
including the lock-contention success — `final_path` exists and
`lock_path` does not.  On the lock-contention path the code creates the
lock file, fails to acquire the lock, and returns `Ok(())` with the lock
file still present and no final file: starting from an empty state
against a healthy server whose lock another instance holds, `download()`
succeeds while `final_path` is absent and `lock_path` exists. -/
theorem C1_counterexample :
    (download ⟨false, 0, false, 0, false⟩
        (fun _ => ⟨none, true, true, some ⟨200⟩, true, false, true, .ok 0, true, true, true⟩)).res
        = .ok ()
      ∧ (download ⟨false, 0, false, 0, false⟩
          (fun _ => ⟨none, true, true, some ⟨200⟩, true, false, true, .ok 0, true, true, true⟩)).fs.finalE
        = false
      ∧ (download ⟨false, 0, false, 0, false⟩
          (fun _ => ⟨none, true, true, some ⟨200⟩, true, false, true, .ok 0, true, true, true⟩)).fs.lockE
        = true := by
  decide

/-- C1 (amended): a `download()` success that comes from completing the
byte stream and finalizing leaves `final_path` present, `temp_path`
absent and `lock_path` absent; a success from the already-complete skip
leaves `final_path` present and `temp_path` absent (the lock file is
untouched); the lock-contention success leaves the lock file present.
The 416 and `UnsupportedServer` successes carry no such guarantee. -/
theorem C1_amended (fs : FsState) (envs : Nat → AttemptEnv) :
    ((download fs envs).okTag = some .finalized →
        (download fs envs).fs.finalE = true
          ∧ (download fs envs).fs.tempE = false
          ∧ (download fs envs).fs.lockE = false)
      ∧ ((download fs envs).okTag = some .skipped →
          (download fs envs).fs.finalE = true
            ∧ (download fs envs).fs.tempE = false)
      ∧ ((download fs envs).okTag = some .contention →
          (download fs envs).fs.lockE = true) := by
  have h := downloadLoop_okTag envs (List.range MAX_RETRIES) fs
  exact h

/-- C1 (witness): the three amended guarantees at concrete runs — a
fresh download that streams 7 bytes and finalizes, an already-complete
skip, and a lock-contention return. -/
theorem C1_witness :
    ((download ⟨false, 0, false, 0, false⟩
        (fun _ => ⟨none, true, true, some ⟨200⟩, true, true, true, .ok 7, true, true, true⟩)).fs.finalE
          = true
      ∧ (download ⟨false, 0, false, 0, false⟩
          (fun _ => ⟨none, true, true, some ⟨200⟩, true, true, true, .ok 7, true, true, true⟩)).fs.tempE
          = false
      ∧ (download ⟨false, 0, false, 0, false⟩
          (fun _ => ⟨none, true, true, some ⟨200⟩, true, true, true, .ok 7, true, true, true⟩)).fs.lockE
          = false)
    ∧ ((download ⟨true, 5, false, 0, false⟩
        (fun _ => ⟨some ⟨some (some "bytes 0-0/5"), none⟩, true, true, some ⟨200⟩, true, true, true,
          .ok 0, true, true, true⟩)).fs.finalE = true
      ∧ (download ⟨true, 5, false, 0, false⟩
          (fun _ => ⟨some ⟨some (some "bytes 0-0/5"), none⟩, true, true, some ⟨200⟩, true, true, true,
            .ok 0, true, true, true⟩)).fs.tempE = false)
    ∧ (download ⟨false, 0, false, 0, false⟩
        (fun _ => ⟨none, true, true, some ⟨200⟩, true, false, true, .ok 0, true, true, true⟩)).fs.lockE
        = true :=
  ⟨(C1_amended _ _).1 (by decide), (C1_amended _ _).2.1 (by decide),
    (C1_amended _ _).2.2 (by decide)⟩

/-! ## C2: reconciliation when both files exist -/

/-- C2: the claim says that with both `final_path` and `temp_path`
present, reconciliation deletes the stale `temp_path`, probes, renames
and resumes from `len(final_path)`.  The code returns "do not skip"
as soon as it sees the temp file (downloader.rs lines 167-170), touching
nothing and never probing, and the attempt then resumes from
`len(temp_path)`: with a 500000-byte final file and a 100000-byte temp
file the state is unchanged and the resume offset is 100000, not
500000. -/
theorem C2_counterexample :
    should_skip_download ⟨true, 500000, true, 100000, false⟩
        ⟨some ⟨some (some "bytes 0-0/1048576"), none⟩, true, true, some ⟨200⟩, true, true, true,
          .ok 0, true, true, true⟩
      = .ok (false, ⟨true, 500000, true, 100000, false⟩)
      ∧ (try_download ⟨true, 500000, true, 100000, false⟩
          ⟨some ⟨some (some "bytes 0-0/1048576"), none⟩, true, true, some ⟨200⟩, true, true, true,
            .ok 0, true, true, true⟩).existingLen = some 100000
      ∧ (100000 : Nat) ≠ 500000 := by
  decide

/-- C2 (amended): whenever both `final_path` and `temp_path` exist at
the start of an attempt, reconciliation deletes nothing and probes
nothing — it returns "do not skip" with the state unchanged — and the
attempt resumes from offset `len(temp_path)`. -/
theorem C2_amended (fs : FsState) (env : AttemptEnv)
    (h1 : fs.finalE = true) (h2 : fs.tempE = true) :
    should_skip_download fs env = .ok (false, fs)
      ∧ (try_download fs env).existingLen = some fs.tempSize := by
  have hss : should_skip_download fs env = .ok (false, fs) := by
    unfold should_skip_download
    rw [if_neg (by simp [h1]), if_pos h2]
  refine ⟨hss, ?_⟩
  rw [try_existingLen fs fs env hss, if_pos h2]

/-- C2 (witness): the amended statement at the stale-pair state of the
counterexample. -/
theorem C2_witness :
    should_skip_download ⟨true, 500000, true, 100000, false⟩
        ⟨some ⟨some (some "bytes 0-0/1048576"), none⟩, true, true, some ⟨200⟩, true, true, true,
          .ok 0, true, true, true⟩
      = .ok (false, ⟨true, 500000, true, 100000, false⟩)
      ∧ (try_download ⟨true, 500000, true, 100000, false⟩
          ⟨some ⟨some (some "bytes 0-0/1048576"), none⟩, true, true, some ⟨200⟩, true, true, true,
            .ok 0, true, true, true⟩).existingLen = some 100000 :=
  C2_amended _ _ rfl rfl

/-! ## C3: the probe that yields no size -/

/-- C3: the claim says an unparseable probe makes the attempt fail with
`UnsupportedServer`, `download()` returning success with no transfer and
no files created.  In the code the only call site of the probe,
`should_skip_download`, catches `UnsupportedServer` and converts it to
"do not skip" (downloader.rs lines 176-180), so the transfer proceeds:
with a 5-byte final file and a server with no parseable headers, the run
streams and finalizes a 7-byte file. -/
theorem C3_counterexample :
    probe_remote_size ⟨none, none⟩ = .error .unsupportedServer
      ∧ (download ⟨true, 5, false, 0, false⟩
          (fun _ => ⟨some ⟨none, none⟩, true, true, some ⟨200⟩, true, true, true, .ok 7,
            true, true, true⟩)).okTag = some .finalized
      ∧ (download ⟨true, 5, false, 0, false⟩
          (fun _ => ⟨some ⟨none, none⟩, true, true, some ⟨200⟩, true, true, true, .ok 7,
            true, true, true⟩)).fs.finalSize = 7 := by
  decide

/-- C3 (amended): a probe failure with `UnsupportedServer` is swallowed
by `should_skip_download`, which returns "do not skip" with the state
unchanged, and the attempt proceeds to transfer; `try_download` never
returns `UnsupportedServer`, so the `UnsupportedServer` arm of the
`download()` driver is dead code. -/
theorem C3_amended (fs fs2 : FsState) (env env2 : AttemptEnv) (r : ProbeResp)
    (hpr : env.probe = some r)
    (hunsup : probe_remote_size r = .error .unsupportedServer) :
    should_skip_download fs env = .ok (false, fs)
      ∧ (try_download fs2 env2).outcome ≠ .failed .unsupportedServer := by
  refine ⟨?_, try_no_unsup fs2 env2⟩
  unfold should_skip_download
  by_cases h1 : fs.finalE = false
  · rw [if_pos h1]
  · rw [if_neg h1]
    by_cases h2 : fs.tempE
    · rw [if_pos h2]
    · rw [if_neg h2]
      rw [hpr]
      dsimp only
      rw [hunsup]

/-- C3 (witness): the amended statement at the state of the
counterexample. -/
theorem C3_witness :
    should_skip_download ⟨true, 5, false, 0, false⟩
        ⟨some ⟨none, none⟩, true, true, some ⟨200⟩, true, true, true, .ok 7, true, true, true⟩
      = .ok (false, ⟨true, 5, false, 0, false⟩)
      ∧ (try_download ⟨false, 0, false, 0, false⟩
          ⟨none, true, true, none, true, true, true, .ok 0, true, true, true⟩).outcome
        ≠ .failed .unsupportedServer :=
  C3_amended _ _ _ _ ⟨none, none⟩ rfl (by decide)

/-! ## C4: backoff arithmetic -/

/-- C4: the claim says the driver sleeps `2 ^ attempt` seconds with
`attempt` counted from 1 — sleeps 2, 4, 8, 16, 32 — for up to five retry
waits.  The loop counts `attempt` from 0 and returns the error when
`attempt == MAX_RETRIES - 1`, so a run whose five attempts all fail
sleeps 1, 2, 4 and 8 seconds (four waits), then surfaces the error. -/
theorem C4_counterexample :
    (download ⟨false, 0, false, 0, false⟩
        (fun _ => ⟨none, true, true, none, true, true, true, .ok 0, true, true, true⟩)).sleeps
      = [1, 2, 4, 8]
      ∧ (download ⟨false, 0, false, 0, false⟩
          (fun _ => ⟨none, true, true, none, true, true, true, .ok 0, true, true, true⟩)).res
        = .error .http
      ∧ (download ⟨false, 0, false, 0, false⟩
          (fun _ => ⟨none, true, true, none, true, true, true, .ok 0, true, true, true⟩)).calls
        = 5
      ∧ ([1, 2, 4, 8] : List Nat) ≠ [2, 4, 8, 16, 32] := by
  decide

/-- C4 (amended): when every attempt fails with a retryable transport
error, the driver sleeps `2 ^ attempt` seconds with `attempt` counted
from 0 — successive sleeps 1, 2, 4, 8, four waits in all — makes
`MAX_RETRIES = 5` calls to `try_download`, and returns the last error
after the fifth failure. -/
theorem C4_amended (fs : FsState) (envs : Nat → AttemptEnv)
    (h1 : fs.finalE = false) (h2 : ∀ i, (envs i).send = none) :
    download fs envs = ⟨.error .http, fs, [1, 2, 4, 8], 5, none, false⟩ := by
  have htry : ∀ i, try_download fs (envs i)
      = ⟨.failed .http, fs, some (if fs.tempE then fs.tempSize else 0)⟩ := by
    intro i
    unfold try_download should_skip_download
    rw [if_pos h1]
    dsimp only
    rw [h2 i]
  unfold download
  rw [show List.range MAX_RETRIES = [0, 1, 2, 3, 4] from rfl]
  simp [downloadLoop, htry, MAX_RETRIES]

/-- C4 (witness): the amended statement at a run whose transfer GET
fails on all five attempts. -/
theorem C4_witness :
    download ⟨false, 0, false, 0, false⟩
        (fun _ => ⟨none, true, true, none, true, true, true, .ok 0, true, true, true⟩)
      = ⟨.error .http, ⟨false, 0, false, 0, false⟩, [1, 2, 4, 8], 5, none, false⟩ :=
  C4_amended _ _ rfl (fun _ => rfl)

/-! ## C7: HTTP 416 handling -/

/-- C7 (confirmed): when the transfer GET of the first attempt returns
status 416, `try_download` fails with `RangeNotSatisfiable`, and the
driver renames `temp_path` to `final_path` when the temp file exists and
returns success after a single call, with no retry sleeps. -/
theorem C7_confirmed (fs fs2 : FsState) (envs : Nat → AttemptEnv) (resp : TransferResp)
    (hss : should_skip_download fs (envs 0) = .ok (false, fs2))
    (hsend : (envs 0).send = some resp)
    (h416 : resp.status = 416)
    (hren : (envs 0).rename416Ok = true) :
    (try_download fs (envs 0)).outcome = .failed .rangeNotSatisfiable
      ∧ (download fs envs).res = .ok ()
      ∧ (download fs envs).calls = 1
      ∧ (download fs envs).sleeps = []
      ∧ (download fs envs).fs = (if fs2.tempE then moveTempToFinal fs2 else fs2) := by
  have htry : try_download fs (envs 0)
      = ⟨.failed .rangeNotSatisfiable, fs2, some (if fs2.tempE then fs2.tempSize else 0)⟩ := by
    unfold try_download
    rw [hss]
    dsimp only
    rw [hsend]
    dsimp only
    rw [if_pos h416]
  have hdl : download fs envs
      = ⟨.ok (), (if fs2.tempE then moveTempToFinal fs2 else fs2), [], 1,
          some .range416, false⟩ := by
    unfold download
    rw [show List.range MAX_RETRIES = 0 :: [1, 2, 3, 4] from rfl]
    simp only [downloadLoop]
    rw [htry, hren]
    simp
  refine ⟨by rw [htry], ?_, ?_, ?_, ?_⟩ <;> rw [hdl]

/-- C7 (witness): the confirmed statement over a run whose first GET
answers 416 while a 10-byte temp file exists. -/
theorem C7_witness :
    (try_download ⟨false, 0, true, 10, false⟩
        ⟨none, true, true, some ⟨416⟩, true, true, true, .ok 0, true, true, true⟩).outcome
      = .failed .rangeNotSatisfiable
      ∧ (download ⟨false, 0, true, 10, false⟩
          (fun _ => ⟨none, true, true, some ⟨416⟩, true, true, true, .ok 0, true, true, true⟩)).res
        = .ok ()
      ∧ (download ⟨false, 0, true, 10, false⟩
          (fun _ => ⟨none, true, true, some ⟨416⟩, true, true, true, .ok 0, true, true, true⟩)).calls
        = 1
      ∧ (download ⟨false, 0, true, 10, false⟩
          (fun _ => ⟨none, true, true, some ⟨416⟩, true, true, true, .ok 0, true, true, true⟩)).sleeps
        = []
      ∧ (download ⟨false, 0, true, 10, false⟩
          (fun _ => ⟨none, true, true, some ⟨416⟩, true, true, true, .ok 0, true, true, true⟩)).fs
        = (if (⟨false, 0, true, 10, false⟩ : FsState).tempE
            then moveTempToFinal ⟨false, 0, true, 10, false⟩
            else ⟨false, 0, true, 10, false⟩) :=
  C7_confirmed ⟨false, 0, true, 10, false⟩ ⟨false, 0, true, 10, false⟩
    (fun _ => ⟨none, true, true, some ⟨416⟩, true, true, true, .ok 0, true, true, true⟩)
    ⟨416⟩ (by decide) rfl rfl rfl

/-! ## C9: Content-Range is strictly authoritative -/

/-- C9 (confirmed): when `Content-Range` is present the probe result
never depends on `Content-Length`, and a missing or unparseable
`/total` field yields `UnsupportedServer` even when a valid
`Content-Length` is present. -/
theorem C9_confirmed (hv : HeaderVal) (cl cl2 : Option HeaderVal) :
    probe_remote_size ⟨some hv, cl⟩ = probe_remote_size ⟨some hv, cl2⟩
      ∧ (contentRangeTotal hv = none →
          probe_remote_size ⟨some hv, cl⟩ = .error .unsupportedServer) := by
  unfold probe_remote_size contentRangeTotal
  cases hv with
  | none => exact ⟨rfl, fun _ => rfl⟩
  | some s =>
    dsimp only
    cases hsp : (splitSlash s).get? 1 with
    | none => exact ⟨rfl, fun _ => rfl⟩
    | some piece =>
      dsimp only
      cases hp : parseU64 ⟨piece⟩ with
      | none => exact ⟨rfl, fun _ => rfl⟩
      | some n =>
        refine ⟨rfl, fun hc => ?_⟩
        exact absurd hc (by simp)

/-- C9 (witness): a present `Content-Range` with no `/total` field wins
over a present, parseable `Content-Length`. -/
theorem C9_witness :
    probe_remote_size ⟨some (some "bytes 0-0"), some (some "1048576")⟩
      = .error .unsupportedServer :=
  (C9_confirmed (some "bytes 0-0") (some (some "1048576")) none).2 (by decide)

/-! ## C10: the retry loop always returns -/

/-- C10 (confirmed): the driver loop always returns from within the
loop: the trailing `unreachable!` never executes, and between one and
`MAX_RETRIES` calls to `try_download` are made. -/
theorem C10_confirmed (fs : FsState) (envs : Nat → AttemptEnv) :
    (download fs envs).panicked = false
      ∧ 1 ≤ (download fs envs).calls
      ∧ (download fs envs).calls ≤ MAX_RETRIES := by
  have h := downloadLoop_total envs (List.range MAX_RETRIES) fs (by decide)
  refine ⟨h.1, h.2.1, ?_⟩
  have h3 := h.2.2
  simpa using h3



/-! ## C8: the progress renderer -/

/-- The truncation scanner leaves at most `maxVisible - vis` characters
that its own notion of visibility counts (characters outside
ESC-to-first-ASCII-letter runs). -/
lemma truncGo_scanVisible (maxVisible : Nat) :
    ∀ (l : List Char) (m : Bool) (vis : Nat),
      scanVisibleGo (truncGo maxVisible l m vis) m ≤ maxVisible - vis := by
  intro l
  induction l with
  | nil => intro m vis; simp [truncGo, scanVisibleGo]
  | cons c cs ih =>
    intro m vis
    cases m with
    | true =>
      simp only [truncGo, scanVisibleGo]
      exact ih (!(isAsciiAlphaB c)) vis
    | false =>
      simp only [truncGo]
      by_cases hesc : c = escChar
      · rw [if_pos hesc]
        simp only [scanVisibleGo]
        rw [if_pos hesc]
        exact ih true vis
      · rw [if_neg hesc]
        by_cases hb : maxVisible ≤ vis
        · rw [if_pos hb]
          simp [scanVisibleGo]
        · rw [if_neg hb]
          simp only [scanVisibleGo]
          rw [if_neg hesc]
          have hih := ih false (vis + 1)
          omega

/-- The truncation output is a prefix of its input: characters are
copied in order and nothing is reordered or synthesized, so an escape
run is never split. -/
lemma truncGo_isPrefix (maxVisible : Nat) :
    ∀ (l : List Char) (m : Bool) (vis : Nat),
      ∃ r, l = truncGo maxVisible l m vis ++ r := by
  intro l
  induction l with
  | nil => intro m vis; exact ⟨[], rfl⟩
  | cons c cs ih =>
    intro m vis
    cases m with
    | true =>
      obtain ⟨r, hr⟩ := ih (!(isAsciiAlphaB c)) vis
      refine ⟨r, ?_⟩
      simp only [truncGo, List.cons_append]
      rw [← hr]
    | false =>
      simp only [truncGo]
      by_cases hesc : c = escChar
      · rw [if_pos hesc]
        obtain ⟨r, hr⟩ := ih true vis
        refine ⟨r, ?_⟩
        simp only [List.cons_append]
        rw [← hr]
      · rw [if_neg hesc]
        by_cases hb : maxVisible ≤ vis
        · rw [if_pos hb]
          exact ⟨c :: cs, rfl⟩
        · rw [if_neg hb]
          obtain ⟨r, hr⟩ := ih false (vis + 1)
          refine ⟨r, ?_⟩
          simp only [List.cons_append]
          rw [← hr]

/-- C8: the claim bounds the emitted text by `max(W-1, 0)` visible code
points, with visible width defined by stripping ANSI CSI sequences
(the regex of `visible_len`).  The truncation scanner instead treats
any ESC-to-first-ASCII-letter run as an escape and copies it free of
charge, while the regex only strips `ESC [ [0-9;]* letter`: on the
private-mode sequence `ESC [ ? 7 l` the two disagree, and with terminal
width 3 the emitted text for `"ESC[?7laaaa"` keeps 7 CSI-stripped code
points, more than `max(W-1, 0) = 2`. -/
theorem C8_counterexample :
    (3 : Nat) - 1 ≤ visible_len "\x1B[?7laaaa"
      ∧ truncate_ansi "\x1B[?7laaaa" (3 - 1) = "\x1B[?7laa"
      ∧ visible_len "\x1B[?7laa" = 7
      ∧ ¬(visible_len "\x1B[?7laa" ≤ max (3 - 1) 0)
      ∧ update_output 0 "\x1B[?7laaaa" 1 3
        = some ("\x1B[?7l" ++ "\x1B[" ++ Nat.repr 1 ++ "A" ++ "\r" ++ "\x1B[2K"
            ++ "\x1B[?7laa" ++ "\x1B[" ++ Nat.repr 1 ++ "B" ++ "\x1B[?7h") := by
  decide

/-- C8 (amended): for every registered id (`id < total`) and every text,
`update` emits exactly one flush: disable auto-wrap, cursor up
`total - id` rows, carriage return, erase line, the text — verbatim when
its CSI-stripped width is below `W - 1`, otherwise truncated by the
escape-preserving scanner — cursor down `total - id` rows, re-enable
auto-wrap.  The truncated form keeps at most `W - 1` code points outside
the ESC-to-letter runs the scanner copies whole, and it is a prefix of
the text (no escape is ever split). -/
theorem C8_amended (id total W : Nat) (text : String) (h : id < total) :
    update_output id text total W
      = some ("\x1B[?7l" ++ "\x1B[" ++ Nat.repr (total - id) ++ "A" ++ "\r" ++ "\x1B[2K"
          ++ (if W - 1 ≤ visible_len text then truncate_ansi text (W - 1) else text)
          ++ "\x1B[" ++ Nat.repr (total - id) ++ "B" ++ "\x1B[?7h")
      ∧ scan_visible (truncate_ansi text (W - 1)) ≤ W - 1
      ∧ (∃ r, text.data = (truncate_ansi text (W - 1)).data ++ r) := by
  refine ⟨?_, ?_, ?_⟩
  · unfold update_output
    rw [if_pos h]
    rfl
  · have hb := truncGo_scanVisible (W - 1) text.data false 0
    simpa [scan_visible, truncate_ansi] using hb
  · obtain ⟨r, hr⟩ := truncGo_isPrefix (W - 1) text.data false 0
    exact ⟨r, by simpa [truncate_ansi] using hr⟩

/-- C8 (witness): the amended statement at track 0 of 1, width 3, text
`hello`. -/
theorem C8_witness :
    update_output 0 "hello" 1 3
      = some ("\x1B[?7l" ++ "\x1B[" ++ Nat.repr (1 - 0) ++ "A" ++ "\r" ++ "\x1B[2K"
          ++ (if 3 - 1 ≤ visible_len "hello" then truncate_ansi "hello" (3 - 1) else "hello")
          ++ "\x1B[" ++ Nat.repr (1 - 0) ++ "B" ++ "\x1B[?7h")
      ∧ scan_visible (truncate_ansi "hello" (3 - 1)) ≤ 3 - 1
      ∧ (∃ r, ("hello" : String).data = (truncate_ansi "hello" (3 - 1)).data ++ r) :=
  C8_amended 0 1 3 "hello" (by decide)


end RD
